import Mathlib

set_option maxRecDepth 16384

deriving instance DecidableEq for Except

/-!
Verification of the natural-language specification of the `stemvex`
equation-parsing core (`server/equation_parser.py`) against a shallow
embedding of that code.  Strings are modelled as `List Char`; each regex
substitution of the source is embedded as a deterministic scan that mirrors
the leftmost, non-overlapping, greedy semantics of the concrete patterns
used there (every character class in those patterns is complement-free or
excludes its closing delimiter, so greedy matching is deterministic).
-/

/-! ## Character utilities -/

/-- The opening brace character, written numerically. -/
def lbrace : Char := Char.ofNat 123

/-- The closing brace character, written numerically. -/
def rbrace : Char := Char.ofNat 125

/-- A single-quote character, written numerically. -/
def quoteC : Char := Char.ofNat 39

/-- Whitespace as matched by the regex class backslash-s and by the Python
`str.strip` method, restricted to the ASCII range that the pipeline can see. -/
def isSpc (c : Char) : Bool :=
  c = ' ' || c = Char.ofNat 9 || c = Char.ofNat 10 || c = Char.ofNat 13 ||
  c = Char.ofNat 11 || c = Char.ofNat 12

/-- ASCII letter, the class `[a-zA-Z]`. -/
def isAsciiAlpha (c : Char) : Bool :=
  ('a' ≤ c && c ≤ 'z') || ('A' ≤ c && c ≤ 'Z')

/-- ASCII digit, the class `[0-9]`. -/
def isAsciiDigit (c : Char) : Bool := '0' ≤ c && c ≤ '9'

/-- The class `[a-zA-Z0-9]`. -/
def isAsciiAlnum (c : Char) : Bool := isAsciiAlpha c || isAsciiDigit c

/-- The word class backslash-w: letters, digits and underscore. -/
def isWordChar (c : Char) : Bool := isAsciiAlnum c || c = '_'

/-- Lowercase letter, the class `[a-z]`. -/
def isLowerAlpha (c : Char) : Bool := 'a' ≤ c && c ≤ 'z'

/-- Lowercasing of a single character as done by the Python `str.lower`
method on the ASCII range. -/
def lcChar (c : Char) : Char :=
  if 'A' ≤ c && c ≤ 'Z' then Char.ofNat (c.toNat + 32) else c

/-- Python `str.strip`: drop whitespace from both ends. -/
def pyStrip (cs : List Char) : List Char :=
  ((cs.dropWhile isSpc).reverse.dropWhile isSpc).reverse

/-- Does the pattern occur at the head of the list? -/
def leadsWith : List Char → List Char → Bool
  | [], _ => true
  | _ :: _, [] => false
  | p :: ps, c :: cs => p = c && leadsWith ps cs

/-- Substring containment on character lists, as used by the Python `in`
operator on strings. -/
def containsSub (pat : List Char) : List Char → Bool
  | [] => leadsWith pat []
  | c :: cs => leadsWith pat (c :: cs) || containsSub pat cs

/-- Consume an exact literal prefix, returning the remainder. -/
def dropLit : List Char → List Char → Option (List Char)
  | [], cs => some cs
  | _ :: _, [] => none
  | p :: ps, c :: cs => if p = c then dropLit ps cs else none

/-- Greedy possibly-empty span of a character class: the pair
(matched run, remainder). -/
def spanC (p : Char → Bool) (cs : List Char) : List Char × List Char :=
  (cs.takeWhile p, cs.dropWhile p)

/-- Greedy nonempty span of a character class (the regex `+` quantifier). -/
def span1 (p : Char → Bool) (cs : List Char) : Option (List Char × List Char) :=
  match cs.takeWhile p with
  | [] => none
  | r => some (r, cs.dropWhile p)

/-! ## Generic regex-substitution scan

`re.sub` scans left to right, replaces each leftmost non-overlapping match
and resumes after the replaced region.  `subScan` mirrors this for a
matcher `m` that, when it fires at the current position, returns the
replacement text and the remainder after the match.  Every matcher below
consumes at least one character when it fires, so fuel equal to the length
of the string is always sufficient. -/

def subScan (m : List Char → Option (List Char × List Char)) :
    Nat → List Char → List Char
  | 0, cs => cs
  | _ + 1, [] => []
  | fuel + 1, c :: cs =>
    match m (c :: cs) with
    | some (rep, rest) => rep ++ subScan m fuel rest
    | none => c :: subScan m fuel cs

/-- Run a substitution over a whole string. -/
def runSub (m : List Char → Option (List Char × List Char))
    (cs : List Char) : List Char :=
  subScan m cs.length cs

/-! ## `EquationParser._remove_lhs`

The source applies three anchored substitutions in sequence, each of which
(being anchored and single-line) fires at most once, then strips the
result:
pattern 1 `^[yY]\s*=\s*`, pattern 2 `^[fFgGhH]\s*\([^)]*\)\s*=\s*`,
pattern 3 `^[a-zA-Z]+\s*=\s*`. -/

/-- Drop leading regex whitespace. -/
def skipSpc (cs : List Char) : List Char := cs.dropWhile isSpc

/-- Anchored matcher for `^[yY]\s*=\s*`: the remainder after the match. -/
def stripY : List Char → Option (List Char)
  | [] => none
  | c :: cs =>
    if c = 'y' || c = 'Y' then
      match skipSpc cs with
      | '=' :: r => some (skipSpc r)
      | _ => none
    else none

/-- Anchored matcher for `^[fFgGhH]\s*\([^)]*\)\s*=\s*`. -/
def stripFn : List Char → Option (List Char)
  | [] => none
  | c :: cs =>
    if c = 'f' || c = 'F' || c = 'g' || c = 'G' || c = 'h' || c = 'H' then
      match skipSpc cs with
      | '(' :: r =>
        match spanC (fun d => !(d = ')')) r with
        | (_, ')' :: r2) =>
          match skipSpc r2 with
          | '=' :: r3 => some (skipSpc r3)
          | _ => none
        | _ => none
      | _ => none
    else none

/-- Anchored matcher for `^[a-zA-Z]+\s*=\s*`. -/
def stripIdent (cs : List Char) : Option (List Char) :=
  match span1 isAsciiAlpha cs with
  | some (_, r) =>
    match skipSpc r with
    | '=' :: r2 => some (skipSpc r2)
    | _ => none
  | none => none

/-- Apply an anchored substitution with empty replacement: `re.sub` with an
anchored pattern leaves the string unchanged when the pattern does not
match at the start. -/
def applyStrip (f : List Char → Option (List Char)) (cs : List Char) :
    List Char :=
  match f cs with
  | some r => r
  | none => cs

/-- `EquationParser._remove_lhs`: the three substitutions in source order,
then `str.strip`. -/
def rmLhsL (cs : List Char) : List Char :=
  pyStrip (applyStrip stripIdent (applyStrip stripFn (applyStrip stripY cs)))

/-- String-level wrapper for `_remove_lhs`. -/
def rmLhsS (s : String) : String := ⟨rmLhsL s.toList⟩

/-! ## `EquationParser._convert_fractions`

The source loops at most 10 times; each iteration finds the leftmost match
of the pattern backslash-frac `{([^{}]+)}{([^{}]+)}` (whose argument groups
are brace-free, hence innermost) and replaces it with `((a)/(b))`. -/

/-- Try the fraction pattern at the current position: on success, the
replacement `((a)/(b))` and the remainder after the match. -/
def fracTry (cs : List Char) : Option (List Char × List Char) := do
  let r ← dropLit ['\\', 'f', 'r', 'a', 'c', lbrace] cs
  let (a, r1) ← span1 (fun c => !(c = lbrace) && !(c = rbrace)) r
  let r2 ← dropLit [rbrace, lbrace] r1
  let (b, r3) ← span1 (fun c => !(c = lbrace) && !(c = rbrace)) r2
  let r4 ← dropLit [rbrace] r3
  some (['(', '('] ++ a ++ [')', '/', '('] ++ b ++ [')', ')'], r4)

/-- One `re.search`-and-replace step: replace the leftmost fraction match,
or return `none` when no match exists. -/
def fracScan : List Char → Option (List Char)
  | [] => none
  | c :: cs =>
    match fracTry (c :: cs) with
    | some (rep, rest) => some (rep ++ rest)
    | none => (fracScan cs).map (c :: ·)

/-- The bounded loop of `_convert_fractions` (`for _ in range(10)` with an
early break when no match remains). -/
def convFracLoop : Nat → List Char → List Char
  | 0, cs => cs
  | k + 1, cs =>
    match fracScan cs with
    | none => cs
    | some cs' => convFracLoop k cs'

/-- `EquationParser._convert_fractions`. -/
def convertFractionsL (cs : List Char) : List Char := convFracLoop 10 cs

/-- Exactly `k` successful replacement steps; `none` if a match runs out
before `k` steps. -/
def fracIter : Nat → List Char → Option (List Char)
  | 0, cs => some cs
  | k + 1, cs =>
    match fracScan cs with
    | none => none
    | some t => fracIter k t

/-! ## `EquationParser._convert_latex_to_python`: individual stages -/

/-- Step 2 matcher, pattern `\^{([^}]+)}` with replacement `**(g)`. -/
def mPowBrace (cs : List Char) : Option (List Char × List Char) := do
  let r ← dropLit ['^', lbrace] cs
  let (g, r1) ← span1 (fun c => !(c = rbrace)) r
  let r2 ← dropLit [rbrace] r1
  some (['*', '*', '('] ++ g ++ [')'], r2)

/-- Step 3 matcher, pattern `\^(\d+)` with replacement `**g`. -/
def mPowDigits (cs : List Char) : Option (List Char × List Char) := do
  let r ← dropLit ['^'] cs
  let (g, r1) ← span1 isAsciiDigit r
  some (['*', '*'] ++ g, r1)

/-- Step 3 matcher, pattern `\^([a-zA-Z])` with replacement `**g`. -/
def mPowLetter : List Char → Option (List Char × List Char)
  | '^' :: c :: cs =>
    if isAsciiAlpha c then some (['*', '*', c], cs) else none
  | _ => none

/-- Step 4 matcher, pattern backslash-sqrt `{([^}]+)}` replaced by
`np.sqrt(g)`. -/
def mSqrtBrace (cs : List Char) : Option (List Char × List Char) := do
  let r ← dropLit ['\\', 's', 'q', 'r', 't', lbrace] cs
  let (g, r1) ← span1 (fun c => !(c = rbrace)) r
  let r2 ← dropLit [rbrace] r1
  some ("np.sqrt(".toList ++ g ++ [')'], r2)

/-- Step 4 matcher, pattern backslash-sqrt `\s*(\w)` replaced by
`np.sqrt(c)`. -/
def mSqrtBare (cs : List Char) : Option (List Char × List Char) := do
  let r ← dropLit ['\\', 's', 'q', 'r', 't'] cs
  match skipSpc r with
  | c :: r1 =>
    if isWordChar c then some ("np.sqrt(".toList ++ [c, ')'], r1) else none
  | [] => none

/-- Step 5 matcher, the nth-root pattern
backslash-sqrt `\[([^\]]+)\]{([^}]+)}` replaced by `((g2))**(1/(g1))`. -/
def mNthRoot (cs : List Char) : Option (List Char × List Char) := do
  let r ← dropLit ['\\', 's', 'q', 'r', 't', '['] cs
  let (g1, r1) ← span1 (fun c => !(c = ']')) r
  let r2 ← dropLit [']', lbrace] r1
  let (g2, r3) ← span1 (fun c => !(c = rbrace)) r2
  let r4 ← dropLit [rbrace] r3
  some (['(', '('] ++ g2 ++ [')', ')', '*', '*', '(', '1', '/', '('] ++
        g1 ++ [')', ')'], r4)

/-- Step 6 matcher, pattern `e\*\*\(([^)]+)\)` replaced by `np.exp(g)`. -/
def mExpParen (cs : List Char) : Option (List Char × List Char) := do
  let r ← dropLit ['e', '*', '*', '('] cs
  let (g, r1) ← span1 (fun c => !(c = ')')) r
  let r2 ← dropLit [')'] r1
  some ("np.exp(".toList ++ g ++ [')'], r2)

/-- Step 6 matcher, pattern `e\*\*(\w+)` replaced by `np.exp(g)`. -/
def mExpWord (cs : List Char) : Option (List Char × List Char) := do
  let r ← dropLit ['e', '*', '*'] cs
  let (g, r1) ← span1 isWordChar r
  some ("np.exp(".toList ++ g ++ [')'], r1)

/-! ### Step 7: the `FUNCTION_MAP` loop

Each entry handles three call syntaxes; the reciprocal entries (whose LaTeX
command contains `cot`, `sec` or `csc`) append one extra closing
parenthesis, matching their targets of the form `(1/np.tan`. -/

/-- Matcher for the braced syntax backslash-name `{([^}]+)}`. -/
def mFunBrace (nm tgt : List Char) (extra : Bool) (cs : List Char) :
    Option (List Char × List Char) := do
  let r ← dropLit ('\\' :: nm ++ [lbrace]) cs
  let (g, r1) ← span1 (fun c => !(c = rbrace)) r
  let r2 ← dropLit [rbrace] r1
  some (tgt ++ ['('] ++ g ++ [')'] ++ (if extra then [')'] else []), r2)

/-- Matcher for the parenthesized syntax backslash-name `\(([^)]+)\)`. -/
def mFunParen (nm tgt : List Char) (extra : Bool) (cs : List Char) :
    Option (List Char × List Char) := do
  let r ← dropLit ('\\' :: nm ++ ['(']) cs
  let (g, r1) ← span1 (fun c => !(c = ')')) r
  let r2 ← dropLit [')'] r1
  some (tgt ++ ['('] ++ g ++ [')'] ++ (if extra then [')'] else []), r2)

/-- Matcher for the spaced syntax backslash-name `\s+([a-zA-Z0-9]+)`. -/
def mFunSpace (nm tgt : List Char) (extra : Bool) (cs : List Char) :
    Option (List Char × List Char) := do
  let r ← dropLit ('\\' :: nm) cs
  let (_, r1) ← span1 isSpc r
  let (g, r2) ← span1 isAsciiAlnum r1
  some (tgt ++ ['('] ++ g ++ [')'] ++ (if extra then [')'] else []), r2)

/-- One `FUNCTION_MAP` entry: LaTeX command name (without backslash),
replacement target, and whether the extra closing parenthesis applies. -/
structure FunEntry where
  nm : String
  tgt : String
  extra : Bool

/-- `EquationParser.FUNCTION_MAP` in source (insertion) order. -/
def funMapEntries : List FunEntry :=
  [⟨"sin", "np.sin", false⟩,
   ⟨"cos", "np.cos", false⟩,
   ⟨"tan", "np.tan", false⟩,
   ⟨"cot", "(1/np.tan", true⟩,
   ⟨"sec", "(1/np.cos", true⟩,
   ⟨"csc", "(1/np.sin", true⟩,
   ⟨"arcsin", "np.arcsin", false⟩,
   ⟨"arccos", "np.arccos", false⟩,
   ⟨"arctan", "np.arctan", false⟩,
   ⟨"sinh", "np.sinh", false⟩,
   ⟨"cosh", "np.cosh", false⟩,
   ⟨"tanh", "np.tanh", false⟩,
   ⟨"ln", "np.log", false⟩,
   ⟨"log", "np.log10", false⟩,
   ⟨"exp", "np.exp", false⟩,
   ⟨"sqrt", "np.sqrt", false⟩,
   ⟨"abs", "np.abs", false⟩]

/-- Apply the three substitutions of one `FUNCTION_MAP` entry in source
order (braced, parenthesized, spaced). -/
def applyFunEntry (e : FunEntry) (cs : List Char) : List Char :=
  runSub (mFunSpace e.nm.toList e.tgt.toList e.extra)
    (runSub (mFunParen e.nm.toList e.tgt.toList e.extra)
      (runSub (mFunBrace e.nm.toList e.tgt.toList e.extra) cs))

/-- The full step 7 loop over `FUNCTION_MAP`. -/
def applyFunMap (cs : List Char) : List Char :=
  funMapEntries.foldl (fun acc e => applyFunEntry e acc) cs

/-- Step 8: `CONSTANT_MAP` substitutions, in source order: backslash-pi to
`np.pi`, backslash-e to `np.e`, backslash-infty to `np.inf`.  Each is a
plain literal replacement. -/
def mConst (nm tgt : List Char) (cs : List Char) :
    Option (List Char × List Char) := do
  let r ← dropLit ('\\' :: nm) cs
  some (tgt, r)

/-- Apply the constant map. -/
def applyConstMap (cs : List Char) : List Char :=
  runSub (mConst "infty".toList "np.inf".toList)
    (runSub (mConst "e".toList "np.e".toList)
      (runSub (mConst "pi".toList "np.pi".toList) cs))

/-! ### Step 9: `_add_implicit_multiplication` -/

/-- Matcher for a two-character-class pattern `(C1)(C2)` replaced by
`c1*c2`. -/
def mPair (p1 p2 : Char → Bool) : List Char → Option (List Char × List Char)
  | c1 :: c2 :: cs =>
    if p1 c1 && p2 c2 then some ([c1, '*', c2], cs) else none
  | _ => none

/-- The repair matcher, pattern `(np\.[a-z]+)\*\(` with replacement
`np.<letters>(`: it requires a lowercase-letter run immediately followed by
`*(`, so a mapped name containing a digit (such as `np.log10`) never
matches. -/
def mRepair (cs : List Char) : Option (List Char × List Char) := do
  let r ← dropLit ['n', 'p', '.'] cs
  let (g, r1) ← span1 isLowerAlpha r
  let r2 ← dropLit ['*', '('] r1
  some (['n', 'p', '.'] ++ g ++ ['('], r2)

/-- `EquationParser._add_implicit_multiplication`: the six insertion rules
in source order, then the repair pass. -/
def addImplicitMult (cs : List Char) : List Char :=
  runSub mRepair
    (runSub (mPair (fun c => c = ')') isAsciiDigit)
      (runSub (mPair isAsciiDigit (fun c => c = '('))
        (runSub (mPair (fun c => c = ')') (fun c => c = '('))
          (runSub (mPair (fun c => c = ')') isAsciiAlpha)
            (runSub (mPair isAsciiAlpha (fun c => c = '('))
              (runSub (mPair isAsciiDigit isAsciiAlpha) cs))))))

/-- Step 10 matcher, pattern `\\[a-zA-Z]+` with empty replacement. -/
def mCleanupCmd (cs : List Char) : Option (List Char × List Char) := do
  let r ← dropLit ['\\'] cs
  let (_, r1) ← span1 isAsciiAlpha r
  some ([], r1)

/-- Step 11a: `str.replace` of braces by parentheses. -/
def mapBraces (cs : List Char) : List Char :=
  cs.map (fun c => if c = lbrace then '(' else if c = rbrace then ')' else c)

/-- Step 11b matcher, pattern `\s+` with empty replacement. -/
def mSpaces (cs : List Char) : Option (List Char × List Char) := do
  let (_, r) ← span1 isSpc cs
  some ([], r)

/-- Step 12 matcher, pattern `\|([^|]+)\|` replaced by `np.abs(g)`. -/
def mAbsBar (cs : List Char) : Option (List Char × List Char) := do
  let r ← dropLit ['|'] cs
  let (g, r1) ← span1 (fun c => !(c = '|')) r
  let r2 ← dropLit ['|'] r1
  some ("np.abs(".toList ++ g ++ [')'], r2)

/-- `EquationParser._convert_latex_to_python`: the twelve steps in source
order. -/
def latexToPythonL (cs : List Char) : List Char :=
  let e1 := convertFractionsL cs
  let e2 := runSub mPowBrace e1
  let e3 := runSub mPowLetter (runSub mPowDigits e2)
  let e4 := runSub mSqrtBare (runSub mSqrtBrace e3)
  let e5 := runSub mNthRoot e4
  let e6 := runSub mExpWord (runSub mExpParen e5)
  let e7 := applyFunMap e6
  let e8 := applyConstMap e7
  let e9 := addImplicitMult e8
  let e10 := runSub mCleanupCmd e9
  let e11 := runSub mSpaces (mapBraces e10)
  runSub mAbsBar e11

/-- String-level wrapper for `_convert_latex_to_python`, the rewrite
pipeline of the specification. -/
def latexToPythonS (s : String) : String := ⟨latexToPythonL s.toList⟩

/-! ## Numeric value model

The evaluator operates on IEEE-754 binary64 data through numpy.  Every
binary64 value is either a (dyadic) rational, an infinity, or not-a-number,
so values are modelled as `NumVal` over `ℚ`.  Arithmetic is modelled
exactly over `ℚ` with the IEEE special-value rules for infinities,
not-a-number, and division by zero; the claims verified below only ever
evaluate operations whose binary64 results are exact, so no rounding model
is needed. -/

inductive NumVal where
  | fin (q : ℚ)
  | pinf
  | ninf
  | nan
  deriving DecidableEq

/-- Numeric negation. -/
def negV : NumVal → NumVal
  | .fin q => .fin (-q)
  | .pinf => .ninf
  | .ninf => .pinf
  | .nan => .nan

/-- IEEE-style addition. -/
def addV : NumVal → NumVal → NumVal
  | .nan, _ => .nan
  | _, .nan => .nan
  | .fin a, .fin b => .fin (a + b)
  | .pinf, .ninf => .nan
  | .ninf, .pinf => .nan
  | .pinf, _ => .pinf
  | _, .pinf => .pinf
  | .ninf, _ => .ninf
  | _, .ninf => .ninf

/-- IEEE-style subtraction. -/
def subV (a b : NumVal) : NumVal := addV a (negV b)

/-- IEEE-style multiplication (an infinity times zero is not-a-number). -/
def mulV : NumVal → NumVal → NumVal
  | .nan, _ => .nan
  | _, .nan => .nan
  | .fin a, .fin b => .fin (a * b)
  | .pinf, .pinf => .pinf
  | .pinf, .ninf => .ninf
  | .ninf, .pinf => .ninf
  | .ninf, .ninf => .pinf
  | .pinf, .fin b => if 0 < b then .pinf else if b < 0 then .ninf else .nan
  | .ninf, .fin b => if 0 < b then .ninf else if b < 0 then .pinf else .nan
  | .fin a, .pinf => if 0 < a then .pinf else if a < 0 then .ninf else .nan
  | .fin a, .ninf => if 0 < a then .ninf else if a < 0 then .pinf else .nan

/-- IEEE-style division, as performed elementwise by numpy: a nonzero
finite value divided by zero is a signed infinity (with a runtime warning,
not an exception), and zero divided by zero is not-a-number. -/
def divV : NumVal → NumVal → NumVal
  | .nan, _ => .nan
  | _, .nan => .nan
  | .fin a, .fin b =>
    if b = 0 then (if 0 < a then .pinf else if a < 0 then .ninf else .nan)
    else .fin (a / b)
  | .fin _, .pinf => .fin 0
  | .fin _, .ninf => .fin 0
  | .pinf, .fin b => if b < 0 then .ninf else .pinf
  | .ninf, .fin b => if b < 0 then .pinf else .ninf
  | _, _ => .nan

/-- Power on the fragment where the binary64 result is exact: integral
exponents of finite values.  The remaining transcendental cases are
modelled as not-a-number; no verified claim evaluates them. -/
def powV : NumVal → NumVal → NumVal
  | .fin a, .fin b =>
    if b.den = 1 then
      if 0 ≤ b.num then .fin (a ^ b.num.toNat)
      else if a = 0 then .pinf
      else .fin ((a ^ (-b.num).toNat)⁻¹)
    else .nan
  | _, _ => .nan

/-- Floor division on finite values; numpy maps division by zero to
not-a-number territory here, and no verified claim evaluates the rest. -/
def fdivV : NumVal → NumVal → NumVal
  | .fin a, .fin b => if b = 0 then .nan else .fin (⌊a / b⌋ : ℤ)
  | _, _ => .nan

/-- Python-style modulo on finite values (sign of the divisor). -/
def modV : NumVal → NumVal → NumVal
  | .fin a, .fin b => if b = 0 then .nan else .fin (a - b * (⌊a / b⌋ : ℤ))
  | _, _ => .nan

/-! ## Abstract syntax of host-language expressions

`_validate_expression` calls the host `compile(expr, "<string>", "eval")`
and `create_function` evaluates the compiled string with `eval`.  These are
interpreter built-ins, not repository code; they are modelled here on the
arithmetic fragment the pipeline deals in: numeric literals, names,
attribute access, calls, unary plus/minus, and the binary arithmetic
operators.  A call node keeps its first argument and the number of further
arguments: the whitelisted functions are unary, so a call with extra
arguments fails at evaluation time just as it does in the source. -/

inductive UnOpK where
  | neg
  | pos
  deriving DecidableEq

inductive BinOpK where
  | add
  | sub
  | mul
  | div
  | fdiv
  | modulo
  | pow
  deriving DecidableEq

inductive PyAst where
  | numl (q : ℚ)
  | name (s : String)
  | attr (b : PyAst) (fld : String)
  | unop (o : UnOpK) (a : PyAst)
  | binop (o : BinOpK) (a b : PyAst)
  | call (f : PyAst) (arg : PyAst) (extraArgs : Nat)
  | call0 (f : PyAst)
  deriving DecidableEq

/-! ## Tokenizer for the host expression grammar -/

inductive Tok where
  | numt (q : ℚ)
  | ident (s : String)
  | lpar
  | rpar
  | comma
  | dott
  | plus
  | minus
  | star
  | slash
  | dstar
  | dslash
  | percent
  deriving DecidableEq

/-- Numeric value of a digit run. -/
def digitsVal (ds : List Char) : ℚ :=
  ds.foldl (fun acc c => 10 * acc + (c.toNat - '0'.toNat : ℕ)) 0

/-- Tokenize a character list; the fuel is the length of the input, which
suffices because every token consumes at least one character. -/
def tokenize : Nat → List Char → Except String (List Tok)
  | 0, [] => .ok []
  | 0, _ :: _ => .error "invalid syntax"
  | _ + 1, [] => .ok []
  | fuel + 1, c :: cs =>
    if isSpc c then tokenize fuel cs
    else if isAsciiDigit c then
      let (ip, r1) := spanC isAsciiDigit (c :: cs)
      match r1 with
      | '.' :: r2 =>
        let (fp, r3) := spanC isAsciiDigit r2
        (tokenize fuel r3).map
          (.numt (digitsVal ip + digitsVal fp / (10 ^ fp.length : ℚ)) :: ·)
      | _ => (tokenize fuel r1).map (.numt (digitsVal ip) :: ·)
    else if isAsciiAlpha c || c = '_' then
      let (nm, r1) := spanC isWordChar (c :: cs)
      (tokenize fuel r1).map (.ident ⟨nm⟩ :: ·)
    else
      match c, cs with
      | '*', '*' :: r => (tokenize fuel r).map (.dstar :: ·)
      | '/', '/' :: r => (tokenize fuel r).map (.dslash :: ·)
      | '.', d :: r =>
        if isAsciiDigit d then
          let (fp, r1) := spanC isAsciiDigit (d :: r)
          (tokenize fuel r1).map
            (.numt (digitsVal fp / (10 ^ fp.length : ℚ)) :: ·)
        else (tokenize fuel cs).map (.dott :: ·)
      | '.', [] => (tokenize fuel cs).map (.dott :: ·)
      | '(', _ => (tokenize fuel cs).map (.lpar :: ·)
      | ')', _ => (tokenize fuel cs).map (.rpar :: ·)
      | ',', _ => (tokenize fuel cs).map (.comma :: ·)
      | '+', _ => (tokenize fuel cs).map (.plus :: ·)
      | '-', _ => (tokenize fuel cs).map (.minus :: ·)
      | '*', _ => (tokenize fuel cs).map (.star :: ·)
      | '/', _ => (tokenize fuel cs).map (.slash :: ·)
      | '%', _ => (tokenize fuel cs).map (.percent :: ·)
      | _, _ => .error "invalid syntax"

/-- Left and right binding power of an infix operator token, mirroring the
host precedence: additive 10, multiplicative 20, power 30 (right
associative, with its right operand at the unary level). -/
def binOpInfo : Tok → Option (BinOpK × Nat × Nat)
  | .plus => some (.add, 10, 11)
  | .minus => some (.sub, 10, 11)
  | .star => some (.mul, 20, 21)
  | .slash => some (.div, 20, 21)
  | .dslash => some (.fdiv, 20, 21)
  | .percent => some (.modulo, 20, 21)
  | .dstar => some (.pow, 30, 25)
  | _ => none

mutual

/-- Parse an expression at a minimum binding power (precedence climbing). -/
def parseExprP : Nat → Nat → List Tok → Except String (PyAst × List Tok)
  | 0, _, _ => .error "invalid syntax"
  | fuel + 1, minbp, ts => do
    let (lhs, ts1) ← parseUn fuel ts
    parseInfx fuel minbp lhs ts1

/-- Parse a unary-prefixed operand (binding power 25, so that a power on
its right binds inside the unary operator). -/
def parseUn : Nat → List Tok → Except String (PyAst × List Tok)
  | 0, _ => .error "invalid syntax"
  | fuel + 1, .plus :: ts => do
    let (a, r) ← parseExprP fuel 25 ts
    .ok (.unop .pos a, r)
  | fuel + 1, .minus :: ts => do
    let (a, r) ← parseExprP fuel 25 ts
    .ok (.unop .neg a, r)
  | fuel + 1, ts => parsePrimary fuel ts

/-- Parse an atom: a literal, a name, or a parenthesized expression. -/
def parsePrimary : Nat → List Tok → Except String (PyAst × List Tok)
  | 0, _ => .error "invalid syntax"
  | fuel + 1, .numt q :: ts => parseTrailers fuel (.numl q) ts
  | fuel + 1, .ident s :: ts => parseTrailers fuel (.name s) ts
  | fuel + 1, .lpar :: ts => do
    let (a, r) ← parseExprP fuel 0 ts
    match r with
    | .rpar :: r2 => parseTrailers fuel a r2
    | _ => .error "invalid syntax"
  | _ + 1, _ => .error "invalid syntax"

/-- Parse attribute-access and call trailers. -/
def parseTrailers : Nat → PyAst → List Tok → Except String (PyAst × List Tok)
  | 0, _, _ => .error "invalid syntax"
  | fuel + 1, acc, .dott :: .ident f :: ts => parseTrailers fuel (.attr acc f) ts
  | _ + 1, _, .dott :: _ => .error "invalid syntax"
  | fuel + 1, acc, .lpar :: .rpar :: ts => parseTrailers fuel (.call0 acc) ts
  | fuel + 1, acc, .lpar :: ts => do
    let (args, r) ← parseArgs fuel ts
    match args with
    | a :: rest => parseTrailers fuel (.call acc a rest.length) r
    | [] => .error "invalid syntax"
  | _ + 1, acc, ts => .ok (acc, ts)

/-- Parse a nonempty comma-separated argument list up to and including the
closing parenthesis. -/
def parseArgs : Nat → List Tok → Except String (List PyAst × List Tok)
  | 0, _ => .error "invalid syntax"
  | fuel + 1, ts => do
    let (a, r) ← parseExprP fuel 0 ts
    match r with
    | .comma :: r2 => do
      let (rest, r3) ← parseArgs fuel r2
      .ok (a :: rest, r3)
    | .rpar :: r2 => .ok ([a], r2)
    | _ => .error "invalid syntax"

/-- Infix loop of the precedence-climbing parser. -/
def parseInfx : Nat → Nat → PyAst → List Tok → Except String (PyAst × List Tok)
  | 0, _, _, _ => .error "invalid syntax"
  | _ + 1, _, lhs, [] => .ok (lhs, [])
  | fuel + 1, minbp, lhs, t :: ts =>
    match binOpInfo t with
    | some (op, lbp, rbp) =>
      if minbp ≤ lbp then do
        let (rhs, r) ← parseExprP fuel rbp ts
        parseInfx fuel minbp (.binop op lhs rhs) r
      else .ok (lhs, t :: ts)
    | none => .ok (lhs, t :: ts)

end

/-- Model of the host `compile(expr, "<string>", "eval")` on the
arithmetic fragment: tokenize, parse a full expression, and require that
all input is consumed. -/
def pyParseTop (cs : List Char) : Except String PyAst := do
  let ts ← tokenize cs.length cs
  let (a, r) ← parseExprP (8 * ts.length + 8) 0 ts
  match r with
  | [] => .ok a
  | _ => .error "invalid syntax"

/-! ## Runtime values and the sandboxed namespace of `create_function` -/

/-- The whitelisted numpy functions: exactly the attribute names that the
`FUNCTION_MAP` targets reach (every target is of the form `np.<name>` or
`(1/np.<name>`). -/
inductive NpFun where
  | sin
  | cos
  | tan
  | arcsin
  | arccos
  | arctan
  | sinh
  | cosh
  | tanh
  | log
  | log10
  | exp
  | sqrt
  | abs
  deriving DecidableEq

/-- A runtime value: a scalar, a numeric array, a whitelisted vectorized
function, the numpy array-constructor `zeros` (a representative of the
numpy functions *outside* the whitelist, all of which the source exposes
because it binds the whole module), the numpy module binding, or the empty
dictionary bound to the `__builtins__` key of the globals passed to
`eval`. -/
inductive PyVal where
  | num (v : NumVal)
  | arr (xs : List NumVal)
  | npfunc (f : NpFun)
  | npzeros
  | npmod
  | emptyDict
  deriving DecidableEq

/-- The binary64 value of `np.pi` (every binary64 value is a dyadic
rational). -/
def npPiQ : ℚ := 884279719003555 / 281474976710656

/-- The binary64 value of `np.e`. -/
def npEQ : ℚ := 6121026514868073 / 2251799813685248

/-- Name resolution during `eval(expr, {"__builtins__": {}},
safe_namespace)`: the local `safe_namespace` binds `np`, `x` (rebound to
the supplied array), `pi` and `e`; the globals bind only `__builtins__` to
an empty dictionary; every other name raises `NameError`. -/
def lookupNs (xs : List NumVal) (n : String) : Option PyVal :=
  if n = "np" then some .npmod
  else if n = "x" then some (.arr xs)
  else if n = "pi" then some (.num (.fin npPiQ))
  else if n = "e" then some (.num (.fin npEQ))
  else if n = "__builtins__" then some .emptyDict
  else none

/-- The attribute dictionary of the numpy module binding.  The source
binds the *entire* numpy module as `np`, so every numpy attribute —
whitelisted or not — is reachable during evaluation.  The model carries
the attributes the pipeline can emit (the `FUNCTION_MAP` and
`CONSTANT_MAP` targets) plus `zeros` as a representative attribute
outside the whitelist, to keep the fact that the binding is not restricted
to the whitelist; the remaining numpy attributes are outside the modelled
fragment. -/
def npAttrTable : List (String × PyVal) :=
  [("sin", .npfunc .sin),
   ("cos", .npfunc .cos),
   ("tan", .npfunc .tan),
   ("arcsin", .npfunc .arcsin),
   ("arccos", .npfunc .arccos),
   ("arctan", .npfunc .arctan),
   ("sinh", .npfunc .sinh),
   ("cosh", .npfunc .cosh),
   ("tanh", .npfunc .tanh),
   ("log", .npfunc .log),
   ("log10", .npfunc .log10),
   ("exp", .npfunc .exp),
   ("sqrt", .npfunc .sqrt),
   ("abs", .npfunc .abs),
   ("pi", .num (.fin npPiQ)),
   ("e", .num (.fin npEQ)),
   ("inf", .num .pinf),
   ("zeros", .npzeros)]

/-- Attribute access on the numpy module binding: a dictionary lookup;
attributes outside the modelled fragment of the module fail here, though
in the source every attribute of the real module resolves. -/
def npAttr (f : String) : Except Unit PyVal :=
  match npAttrTable.find? (fun p => p.1 = f) with
  | some p => .ok p.2
  | none => .error ()

/-- Attribute access: the model resolves attributes on the module binding;
attributes of other host values (arrays and scalars do expose attributes
such as `size`) lie outside the modelled fragment and fail here. -/
def attrOf : PyVal → String → Except Unit PyVal
  | .npmod, f => npAttr f
  | _, _ => .error ()

/-- Elementwise numeric operation for a binary operator. -/
def binOpNum : BinOpK → NumVal → NumVal → NumVal
  | .add => addV
  | .sub => subV
  | .mul => mulV
  | .div => divV
  | .fdiv => fdivV
  | .modulo => modV
  | .pow => powV

/-- Scalar-scalar semantics of the host: division (and floor division and
modulo) of scalars by zero raises `ZeroDivisionError` instead of producing
an infinity, and so does raising zero to a negative power. -/
def binOpScalar (o : BinOpK) (a b : NumVal) : Except Unit NumVal :=
  match o, b with
  | .div, .fin q => if q = 0 then .error () else .ok (binOpNum o a b)
  | .fdiv, .fin q => if q = 0 then .error () else .ok (binOpNum o a b)
  | .modulo, .fin q => if q = 0 then .error () else .ok (binOpNum o a b)
  | .pow, .fin q =>
    if a = .fin 0 ∧ q < 0 then .error () else .ok (binOpNum o a b)
  | _, _ => .ok (binOpNum o a b)

/-- Binary operation on runtime values: scalars combine with host scalar
semantics; an array operand broadcasts elementwise (numpy emits warnings,
not exceptions, for its special values); two arrays must have equal
lengths; any non-numeric operand raises `TypeError`. -/
def binOpApply (o : BinOpK) : PyVal → PyVal → Except Unit PyVal
  | .num a, .num b => (binOpScalar o a b).map .num
  | .num a, .arr l => .ok (.arr (l.map (fun v => binOpNum o a v)))
  | .arr l, .num b => .ok (.arr (l.map (fun v => binOpNum o v b)))
  | .arr l, .arr m =>
    if l.length = m.length then .ok (.arr (List.zipWith (binOpNum o) l m))
    else .error ()
  | _, _ => .error ()

/-- Unary operation on runtime values. -/
def unOpApply : UnOpK → PyVal → Except Unit PyVal
  | .neg, .num v => .ok (.num (negV v))
  | .neg, .arr l => .ok (.arr (l.map negV))
  | .pos, .num v => .ok (.num v)
  | .pos, .arr l => .ok (.arr l)
  | _, _ => .error ()

/-- Application of a callable value to one evaluated argument.  The
elementwise numeric behavior of the whitelisted transcendental functions is
external to the repository, so it is abstracted as a parameter `sem`;
vectorization (mapping over a whole array) is the structure the source
relies on.  The non-whitelisted constructor `np.zeros` applied to a
nonnegative integer returns a fresh zero array of that length, whose
length is unrelated to the bound input array.  Calling a non-function
raises `TypeError`. -/
def callApply (sem : NpFun → NumVal → NumVal) :
    PyVal → PyVal → Except Unit PyVal
  | .npfunc f, .num v => .ok (.num (sem f v))
  | .npfunc f, .arr l => .ok (.arr (l.map (sem f)))
  | .npzeros, .num (.fin q) =>
    if q.den = 1 ∧ 0 ≤ q.num then
      .ok (.arr (List.replicate q.num.toNat (.fin 0)))
    else .error ()
  | _, _ => .error ()

/-- Evaluation of an expression tree in the sandboxed namespace.  The
`extraArgs` count of a call node makes a call with more than one argument
fail, as the unary whitelisted functions do. -/
def evalA (sem : NpFun → NumVal → NumVal) (xs : List NumVal) :
    PyAst → Except Unit PyVal
  | .numl q => .ok (.num (.fin q))
  | .name n =>
    match lookupNs xs n with
    | some v => .ok v
    | none => .error ()
  | .attr b f =>
    match evalA sem xs b with
    | .error e => .error e
    | .ok v => attrOf v f
  | .unop o a =>
    match evalA sem xs a with
    | .error e => .error e
    | .ok v => unOpApply o v
  | .binop o a b =>
    match evalA sem xs a with
    | .error e => .error e
    | .ok va =>
      match evalA sem xs b with
      | .error e => .error e
      | .ok vb => binOpApply o va vb
  | .call f arg extra =>
    match evalA sem xs f with
    | .error e => .error e
    | .ok fv =>
      match evalA sem xs arg with
      | .error e => .error e
      | .ok av => if extra = 0 then callApply sem fv av else .error ()
  | .call0 f =>
    match evalA sem xs f with
    | .error e => .error e
    | .ok _ => .error ()

/-- A concrete stand-in interpretation for the whitelisted transcendental
functions, used to instantiate witnesses; the verified claims never depend
on its pointwise values. -/
def npSemStub : NpFun → NumVal → NumVal := fun _ _ => .nan

/-! ## `EquationParser._validate_expression` -/

/-- The deny-list of `_validate_expression`, in source order. -/
def dangerousList : List String :=
  ["import", "exec", "eval", "open", "file", "__", "os.", "sys."]

/-- The first deny-list entry contained in the lowercased expression, if
any (the `for d in dangerous` loop raises on the first hit). -/
def firstDangerous (cs : List Char) : Option String :=
  dangerousList.find? (fun d => containsSub d.toList (cs.map lcChar))

/-- The validation error message naming a forbidden token. -/
def dangerMsg (d : String) : String :=
  "Invalid expression: contains " ++ ⟨[quoteC]⟩ ++ d ++ ⟨[quoteC]⟩

/-- `EquationParser._validate_expression`: deny-list scan, parenthesis
balance, then the host grammar check. -/
def validateL (cs : List Char) : Except String Unit :=
  match firstDangerous cs with
  | some d => .error (dangerMsg d)
  | none =>
    if cs.count '(' ≠ cs.count ')' then
      .error "Unbalanced parentheses in expression"
    else
      match pyParseTop cs with
      | .error m => .error ("Invalid expression syntax: " ++ m)
      | .ok _ => .ok ()

/-! ## `EquationParser.parse` and `EquationParser.create_function` -/

/-- `EquationParser.parse`: reject blank input, strip, remove the
left-hand side, rewrite, validate, and return the rewritten string. -/
def parseLatex (s : String) : Except String String :=
  if pyStrip s.toList = [] then .error "Empty equation"
  else
    let e1 := rmLhsL (pyStrip s.toList)
    let e2 := latexToPythonL e1
    match validateL e2 with
    | .error m => .error m
    | .ok () => .ok ⟨e2⟩

/-- `EquationParser.create_function` applied to an input array: evaluate
the expression in the sandboxed namespace; on any exception (a syntax
error from `eval` or any runtime evaluation error) return an array of
not-a-number values of the same shape as the input, as
`np.full_like(x_values, np.nan, dtype=float)` does. -/
def createFunction (sem : NpFun → NumVal → NumVal) (expr : String)
    (xs : List NumVal) : PyVal :=
  match pyParseTop expr.toList with
  | .error _ => .arr (xs.map fun _ => .nan)
  | .ok ast =>
    match evalA sem xs ast with
    | .ok v => v
    | .error _ => .arr (xs.map fun _ => .nan)

/-- Is the runtime value an array? -/
def isArrV : PyVal → Bool
  | .arr _ => true
  | _ => false

/-! ## A checker for the restricted grammar stated by the specification -/

/-- Character class of identifier-like tokens, dotted names included. -/
def namePartC (c : Char) : Bool := isWordChar c || c = '.'

/-- The identifier-like tokens of a string: maximal runs of name
characters that start with a letter or underscore.  The fuel argument is
the length of the input, which suffices because each step consumes at
least one character. -/
def identToksF : Nat → List Char → List (List Char)
  | 0, _ => []
  | _ + 1, [] => []
  | fuel + 1, c :: cs =>
    if isAsciiAlpha c || c = '_' then
      (c :: cs.takeWhile namePartC) :: identToksF fuel (cs.dropWhile namePartC)
    else identToksF fuel cs

/-- The identifier-like tokens of a string. -/
def identToks (cs : List Char) : List (List Char) :=
  identToksF cs.length cs

/-- The names the restricted grammar of the specification permits: the
single free variable and the whitelisted functions and constants. -/
def specAllowedNames : List String :=
  ["x", "np.sin", "np.cos", "np.tan", "np.arcsin", "np.arccos", "np.arctan",
   "np.sinh", "np.cosh", "np.tanh", "np.log", "np.log10", "np.exp",
   "np.sqrt", "np.abs", "np.pi", "np.e", "np.inf", "pi", "e"]

/-- Following the words of the specification, not the source: a string is
in the restricted grammar when it parses as an arithmetic expression and
every identifier-like token it contains is the single free variable or a
call into the fixed function/constant whitelist.  This definition exists
only to compare the validator of the source against the specified
restriction. -/
def specRestrictedExpr (s : String) : Bool :=
  (match pyParseTop s.toList with
   | .ok _ => true
   | .error _ => false) &&
  (identToks s.toList).all
    (fun t => specAllowedNames.any (fun a => a.toList = t))

/-! ## Helper lemmas -/

/-- A prefix match survives any character mapping. -/
theorem leadsWithMap (f : Char → Char) :
    ∀ pat cs : List Char, leadsWith pat cs = true →
      leadsWith (pat.map f) (cs.map f) = true := by
  intro pat
  induction pat with
  | nil => intro cs _; simp [leadsWith]
  | cons p ps ih =>
    intro cs h
    cases cs with
    | nil => simp [leadsWith] at h
    | cons c cs' =>
      simp only [leadsWith, Bool.and_eq_true, decide_eq_true_eq] at h
      simp only [List.map, leadsWith, Bool.and_eq_true, decide_eq_true_eq]
      exact ⟨by rw [h.1], ih cs' h.2⟩

/-- Substring containment survives any character mapping. -/
theorem containsSubMap (f : Char → Char) (pat : List Char) :
    ∀ cs : List Char, containsSub pat cs = true →
      containsSub (pat.map f) (cs.map f) = true := by
  intro cs
  induction cs with
  | nil =>
    intro h
    simp only [containsSub] at h ⊢
    cases pat with
    | nil => simp [leadsWith]
    | cons p ps => simp [leadsWith] at h
  | cons c cs' ih =>
    intro h
    simp only [containsSub, Bool.or_eq_true] at h ⊢
    cases h with
    | inl h => exact Or.inl (leadsWithMap f pat (c :: cs') h)
    | inr h => exact Or.inr (ih h)

/-! ## Claims -/

/-- C1, counterexample: the raw input `eval = x` contains the forbidden
token `eval`, yet parsing succeeds and returns `x` — the left-hand-side
stripper consumes the token before the deny-list scan, which runs on the
rewritten string, not on the raw input. -/
theorem c1_counterexample :
    containsSub "eval".toList "eval = x".toList = true ∧
      parseLatex "eval = x" = .ok "x" := by
  constructor
  · decide
  · rfl

/-- C1, amended: the case-insensitive deny-list scan applies to the
rewritten expression, not to the raw input: whenever the rewritten string
contains a forbidden token, validation fails with an error naming the
first such token of the deny-list. -/
theorem c1_claim (cs : List Char) (d : String)
    (h : firstDangerous cs = some d) :
    validateL cs = .error (dangerMsg d) := by
  unfold validateL
  rw [h]

/-- C1, witness. -/
theorem c1_witness : validateL "import x".toList = .error (dangerMsg "import") :=
  c1_claim "import x".toList "import" (by decide)

/-- C8, counterexample: the three left-hand-side patterns are not
first-match-wins; on `y=x=3` the first pattern strips `y=` and the third
pattern then strips `x=` from its output, so the result is `3`, not the
`x=3` that first-match-wins would give. -/
theorem c8_counterexample :
    rmLhsS "y=x=3" = "3" ∧ ("3" : String) ≠ "x=3" := by
  constructor
  · decide
  · decide

/-- C8, amended: normalization tries the three anchored patterns in
sequence, each at most once and only at the very beginning of its current
string, and a later pattern may strip again from the output of an earlier
one; when no pattern matches, the input passes through unchanged after
trimming. -/
theorem c8_claim :
    (∀ cs : List Char, stripY cs = none → stripFn cs = none →
      stripIdent cs = none → rmLhsL cs = pyStrip cs) ∧
    rmLhsS "y = x = 3" = "3" := by
  constructor
  · intro cs h1 h2 h3
    unfold rmLhsL applyStrip
    rw [h1, h2, h3]
  · decide

/-- C8, witness: an input with no left-hand side passes through
unchanged. -/
theorem c8_witness : rmLhsL "x+1".toList = pyStrip "x+1".toList :=
  c8_claim.1 "x+1".toList (by decide) (by decide) (by decide)

/-- C9, counterexample: the rewrite pipeline is not idempotent; a second
application changes the output on input `2|x|`. -/
theorem c9_counterexample :
    latexToPythonS (latexToPythonS "2|x|") ≠ latexToPythonS "2|x|" := by
  decide

/-- C9, amended: applied to an already-canonical expression (for example
`x**2`, `2*x` or `np.sin(x)`) the rewrite pipeline is the identity, but
double application is not the identity in general: absolute-value bars are
converted only after implicit-multiplication insertion, so `2|x|` rewrites
to `2np.abs(x)` and a second pass inserts the multiplication operator that
the first pass missed. -/
theorem c9_claim :
    latexToPythonS "x**2" = "x**2" ∧
    latexToPythonS "2*x" = "2*x" ∧
    latexToPythonS "np.sin(x)" = "np.sin(x)" ∧
    latexToPythonS "2|x|" = "2np.abs(x)" ∧
    latexToPythonS "2np.abs(x)" = "2*np.abs(x)" := by
  refine ⟨by decide, by decide, by decide, by decide, by decide⟩

/-- C7: the repair pass of `_add_implicit_multiplication` matches only
`np\.[a-z]+` before `*(`, so the mapped name `np.log10` — which contains
digits — is never repaired: the documented-as-supported input
`\log(x)` rewrites to `np.log10*(x)`, which evaluates to an all-not-a-number
array instead of applying the base-10 logarithm, while `\sin(x)` and `2x`
behave as the claim states. -/
theorem c7_claim :
    latexToPythonS "\\log(x)" = "np.log10*(x)" ∧
    latexToPythonS "\\sin(x)" = "np.sin(x)" ∧
    latexToPythonS "2x" = "2*x" ∧
    createFunction npSemStub "np.log10*(x)" [NumVal.fin 1, NumVal.fin 10] =
      .arr [NumVal.nan, NumVal.nan] := by
  refine ⟨by decide, by decide, by decide, by decide⟩

/-- C10, auxiliary: the bounded fraction loop performs some number of
single leftmost-innermost replacements, at most its iteration bound, and
stops early only at a fixpoint. -/
theorem convFracLoopIter :
    ∀ (n : Nat) (cs : List Char), ∃ k, k ≤ n ∧
      fracIter k cs = some (convFracLoop n cs) ∧
      (fracScan (convFracLoop n cs) = none ∨ k = n) := by
  intro n
  induction n with
  | zero => exact fun cs => ⟨0, Nat.le_refl 0, rfl, Or.inr rfl⟩
  | succ n ih =>
    intro cs
    cases hs : fracScan cs with
    | none =>
      refine ⟨0, Nat.zero_le _, ?_, Or.inl ?_⟩
      · simp [convFracLoop, hs, fracIter]
      · simp [convFracLoop, hs]
    | some t =>
      obtain ⟨k, hk, hit, hend⟩ := ih t
      refine ⟨k + 1, Nat.succ_le_succ hk, ?_, ?_⟩
      · simp only [convFracLoop, hs, fracIter]
        exact hit
      · simp only [convFracLoop, hs]
        cases hend with
        | inl h => exact Or.inl h
        | inr h => exact Or.inr (by rw [h])

/-- C10: fraction flattening performs at most 10 replacement iterations,
each replacing the leftmost brace-free (hence innermost) `frac{a}{b}` with
`((a)/(b))`; it is a total function that either reaches a fraction-free
fixpoint or stops at the iteration bound, so the pipeline terminates on
every input. -/
theorem c10_claim (cs : List Char) :
    ∃ k, k ≤ 10 ∧ fracIter k cs = some (convertFractionsL cs) ∧
      (fracScan (convertFractionsL cs) = none ∨ k = 10) :=
  convFracLoopIter 10 cs

/-- C2, counterexample: the validator accepts the string `y`, which lies
outside the restricted grammar stated by the specification (its only
identifier is a free variable other than `x` and it calls nothing in the
whitelist). -/
theorem c2_counterexample :
    validateL "y".toList = .ok () ∧ specRestrictedExpr "y" = false := by
  constructor
  · rfl
  · decide

/-- C2, amended: the validator accepts a rewritten string exactly when it
passes the case-insensitive deny-list scan, has balanced parentheses, and
parses under the host language's general expression grammar — it does not
restrict identifiers to the free variable and the whitelist; any parse
failure is rejected with an error reporting the underlying syntax
error. -/
theorem c2_claim (cs : List Char) :
    ((validateL cs = .ok ()) ↔
      (firstDangerous cs = none ∧ cs.count '(' = cs.count ')' ∧
        ∃ a, pyParseTop cs = .ok a)) ∧
    (∀ m, firstDangerous cs = none → cs.count '(' = cs.count ')' →
      pyParseTop cs = .error m →
      validateL cs = .error ("Invalid expression syntax: " ++ m)) := by
  constructor
  · unfold validateL
    cases hd : firstDangerous cs with
    | some d => simp
    | none =>
      by_cases hb : cs.count '(' = cs.count ')'
      · simp only [hb, ne_eq, not_true_eq_false, if_false, true_and]
        cases hp : pyParseTop cs with
        | ok a => simp
        | error m => simp
      · simp [hb]
  · intro m h1 h2 h3
    unfold validateL
    rw [h1, h3]
    simp [h2]

/-- C2, witness: a string that fails the host grammar is rejected with the
syntax-error message. -/
theorem c2_witness :
    validateL "x+".toList =
      .error ("Invalid expression syntax: " ++ "invalid syntax") :=
  (c2_claim "x+".toList).2 "invalid syntax" (by decide) (by decide) (by rfl)

/-- C3, counterexample: the string `np.zeros(5)` passes validation, yet
during its evaluation the name `np.zeros` — a numpy attribute that is the
target of no `FUNCTION_MAP` entry, hence outside the whitelist — resolves
and its call succeeds, because the namespace binds the entire numpy module
as `np` rather than only the whitelisted functions and constants. -/
theorem c3_counterexample :
    validateL "np.zeros(5)".toList = .ok () ∧
    npAttr "zeros" = .ok .npzeros ∧
    funMapEntries.all (fun e => !(e.tgt = "np.zeros")) = true ∧
    evalA npSemStub [NumVal.fin 1, NumVal.fin 2]
        (.call (.attr (.name "np") "zeros") (.numl 5) 0) =
      .ok (.arr (List.replicate 5 (NumVal.fin 0))) := by
  refine ⟨by rfl, by rfl, by decide, by with_unfolding_all rfl⟩

/-- C3, amended: during evaluation the only resolvable bare names are
`np`, `x`, `pi` and `e` (for any name free of the double underscore that
validation forbids; and every validated string is free of double
underscores, so the extra empty `__builtins__` binding of the globals is
unreachable from validated expressions); but the `np` binding is the
entire numpy module, not only the whitelisted functions and constants, so
module attributes outside the whitelist — such as `np.zeros` — remain
resolvable during evaluation of validated expressions. -/
theorem c3_claim :
    (∀ (xs : List NumVal) (n : String), (lookupNs xs n).isSome = true →
      containsSub ['_', '_'] n.toList = false →
      n = "np" ∨ n = "x" ∨ n = "pi" ∨ n = "e") ∧
    (∀ cs : List Char, validateL cs = .ok () →
      containsSub ['_', '_'] cs = false) ∧
    npAttr "zeros" = .ok .npzeros := by
  refine ⟨?_, ?_, by rfl⟩
  · intro xs n h hnd
    unfold lookupNs at h
    split_ifs at h with h1 h2 h3 h4 h5
    · exact Or.inl h1
    · exact Or.inr (Or.inl h2)
    · exact Or.inr (Or.inr (Or.inl h3))
    · exact Or.inr (Or.inr (Or.inr h4))
    · subst h5
      exact absurd hnd (by decide)
    · simp at h
  · intro cs hv
    cases hd : firstDangerous cs with
    | some d =>
      unfold validateL at hv
      rw [hd] at hv
      simp at hv
    | none =>
      unfold firstDangerous at hd
      have hall := List.find?_eq_none.mp hd "__" (by decide)
      simp only [Bool.not_eq_true] at hall
      cases hc : containsSub ['_', '_'] cs with
      | false => rfl
      | true =>
        have := containsSubMap lcChar ['_', '_'] cs hc
        simp only [List.map, show lcChar '_' = '_' from by decide] at this
        rw [show ("__" : String).toList = ['_', '_'] from by decide] at hall
        rw [this] at hall
        simp at hall

/-- C3, witness. -/
theorem c3_witness :
    ("np" = "np" ∨ "np" = "x" ∨ "np" = "pi" ∨ "np" = "e") ∧
      containsSub ['_', '_'] "x".toList = false :=
  ⟨c3_claim.1 [] "np" (by decide) (by decide),
   c3_claim.2.1 "x".toList (by rfl)⟩

/-- C4: if evaluating a compiled expression fails with any runtime error,
the whole call returns an array of not-a-number values of the same length
as the input array; evaluator runtime failures are never re-raised. -/
theorem c4_claim (sem : NpFun → NumVal → NumVal) (expr : String)
    (xs : List NumVal) (ast : PyAst)
    (hp : pyParseTop expr.toList = .ok ast)
    (he : evalA sem xs ast = .error ()) :
    createFunction sem expr xs = .arr (List.replicate xs.length .nan) := by
  simp only [createFunction, hp, he, List.map_const']

/-- C4, witness: an unresolvable name fails at runtime and the call
returns the not-a-number array of the input's shape. -/
theorem c4_witness :
    createFunction npSemStub "foo" [NumVal.fin 1, NumVal.fin 2] =
      .arr (List.replicate 2 .nan) :=
  c4_claim npSemStub "foo" [NumVal.fin 1, NumVal.fin 2] (.name "foo")
    (by rfl) (by rfl)

/-- C5, counterexample: the compiled evaluator of `1/x` applied to an
array containing 0 produces positive infinity — not a not-a-number value —
at the position of the 0 (numpy divides by zero with a warning, which is
not an exception, so the not-a-number fallback is never reached). -/
theorem c5_counterexample :
    createFunction npSemStub "1/x" [NumVal.fin 0, NumVal.fin 2] =
      .arr [NumVal.pinf, NumVal.fin (1 / 2)] ∧
    NumVal.pinf ≠ NumVal.nan := by
  constructor
  · with_unfolding_all rfl
  · decide

/-- C5, amended: the evaluator compiled from `1/x`, applied to an input
array containing 0, produces positive infinity at the position of the 0
without raising, while the other positions hold the valid reciprocal
values.  The interpretation of the whitelisted transcendental functions is
irrelevant here (`1/x` contains no call), so the stand-in interpretation
is used. -/
theorem c5_claim :
    createFunction npSemStub "1/x" [NumVal.fin 0, NumVal.fin 2] =
      .arr [NumVal.pinf, NumVal.fin (1 / 2)] := by
  with_unfolding_all rfl

/-- C6, counterexample: the same-shape contract fails on the success path
in two ways.  On the constant expression `3` the evaluator returns the
scalar 3, not an array matching the shape of the two-element input; and on
the validated expression `np.zeros(5)` — reachable because the namespace
binds the whole numpy module — it returns a five-element array for a
two-element input. -/
theorem c6_counterexample :
    createFunction npSemStub "3" [NumVal.fin 1, NumVal.fin 2] =
      .num (.fin 3) ∧
    isArrV (createFunction npSemStub "3" [NumVal.fin 1, NumVal.fin 2]) =
      false ∧
    createFunction npSemStub "np.zeros(5)" [NumVal.fin 1, NumVal.fin 2] =
      .arr (List.replicate 5 (NumVal.fin 0)) ∧
    (List.replicate 5 (NumVal.fin 0)).length ≠
      ([NumVal.fin 1, NumVal.fin 2] : List NumVal).length := by
  refine ⟨?_, ?_, ?_, by decide⟩
  · with_unfolding_all rfl
  · with_unfolding_all rfl
  · with_unfolding_all rfl

/-- C6, amended: the compiled evaluator guarantees the input's shape only
on the failure path: whenever evaluation cannot produce a value (the
expression does not parse, or every parse evaluates to a runtime error),
the call returns a not-a-number array of exactly the input's length.  A
successful evaluation is returned as-is and need not match the input's
shape: a constant expression yields a scalar, and a call such as
`np.zeros(5)` yields an array of an unrelated length (see the
counterexample). -/
theorem c6_claim (sem : NpFun → NumVal → NumVal) (expr : String)
    (xs : List NumVal)
    (h : ∀ ast, pyParseTop expr.toList = .ok ast →
      evalA sem xs ast = .error ()) :
    createFunction sem expr xs = .arr (List.replicate xs.length .nan) := by
  unfold createFunction
  split
  · simp [List.map_const']
  · rename_i ast hp
    split
    · rename_i v hv
      rw [h ast hp] at hv
      exact Except.noConfusion hv
    · simp [List.map_const']

/-- C6, witness: an unresolvable name evaluates to a runtime error and the
call returns the not-a-number array of the input's length. -/
theorem c6_witness :
    createFunction npSemStub "bar" [NumVal.fin 1, NumVal.fin 2] =
      .arr (List.replicate 2 .nan) :=
  c6_claim npSemStub "bar" [NumVal.fin 1, NumVal.fin 2] (by
    intro ast hp
    rw [show pyParseTop "bar".toList = Except.ok (PyAst.name "bar")
      from rfl] at hp
    cases hp
    rfl)
